import Mathlib

/-!
Shallow embedding of `src/app-check-invoices.py` (B Fashion Brands invoice
checker): label normalization, header detection, alias-based column
resolution, table extraction (filter / coerce / truncate), and the
reconciliation engine (left join, diffs, deviation flag, aggregate).

Modelling conventions:
* raw header cells are Lean `String`s (the Python code stringifies every
  cell before use);
* numeric data cells are modelled by the variant `Cell`
  (blank / parsed number / non-numeric text), reflecting the outcome of
  `is_numeric_or_empty` and the subsequent `float` coercion on the
  string-typed frame; numbers are rationals;
* a missing (NaN) value is `Option.none`;
* pandas row labels are modelled explicitly: after the boolean-mask filter
  the original integer labels survive, and `truncate_table` mixes those
  labels (`iterrows`) with positional slicing (`iloc`), exactly as the
  source does.
-/

namespace InvoiceCheck

/-- `clean_col`: keep exactly the characters `[a-z0-9]` (by code point,
as the regex does). -/
def isKept (c : Char) : Bool :=
  (97 ≤ c.toNat && c.toNat ≤ 122) || (48 ≤ c.toNat && c.toNat ≤ 57)

/-- `clean_col(col)`: lower-case, then strip every character outside
`[a-z0-9]`. -/
def clean_col (s : String) : String :=
  ⟨(s.data.map Char.toLower).filter isKept⟩

/-- Python's substring test `needle in hay` on the underlying
character lists. -/
def isSubstr : List Char → List Char → Bool
  | n, [] => n.isEmpty
  | n, h :: t => n.isPrefixOf (h :: t) || isSubstr n t

/-- Python's `needle in hay` for strings. -/
def strIn (needle hay : String) : Bool := isSubstr needle.data hay.data

/-- Python `str.strip()` (whitespace from both ends). -/
def pyStrip (s : String) : String :=
  ⟨((s.data.dropWhile Char.isWhitespace).reverse.dropWhile
      Char.isWhitespace).reverse⟩

/-- Python `str.lower()`. -/
def strLower (s : String) : String := ⟨s.data.map Char.toLower⟩

/-- The alias dictionary `COLUMN_ALIASES`, in declared order. -/
def styleNoAliases : List String :=
  ["style no", "article no", "style number", "styleno"]

def poNrAliases : List String :=
  ["po nr", "po no", "order no", "order number", "po number", "po no.",
   "pono"]

def quantityAliases : List String :=
  ["qty", "qty/pc", "quantity", "pieces", "pcs", "pieces (pcs)",
   "pieces   (pcs)"]

def priceAliases : List String :=
  ["unit price", "price", "price/usd", "unitprice", "price/usd"]

def totalAliases : List String :=
  ["amount", "total", "amount (usd)", "total amount", "amount usd", "ttl",
   "sum"]

def COLUMN_ALIASES : List (String × List String) :=
  [("Style No", styleNoAliases), ("PO Nr", poNrAliases),
   ("Quantity", quantityAliases), ("Price", priceAliases),
   ("Total", totalAliases)]

/-- `' '.join(txts).lower()` over the stripped cell texts. -/
def joinedText (row : List String) : String :=
  strLower (String.intercalate " " (row.map pyStrip))

/-- Count of ASCII characters (`ord(c) < 128`). -/
def asciiCount (s : String) : Nat :=
  (s.data.filter (fun c => c.toNat < 128)).length

/-- `len(set(txts) - {""})`: number of distinct non-empty stripped cell
texts. -/
def distinctCellCount (row : List String) : Nat :=
  (((row.map pyStrip).filter (fun t => t != "")).dedup).length

/-- Number of cells containing "company", "ltd" or "inc"
(case-insensitive). -/
def companyCount (row : List String) : Nat :=
  ((row.map pyStrip).filter (fun c =>
    strIn "company" (strLower c) || strIn "ltd" (strLower c) ||
    strIn "inc" (strLower c))).length

/-- `looks_like_header(row)`: the four early-return checks of the
source, in order. -/
def looks_like_header (row : List String) : Bool :=
  let joined := joinedText row
  if joined.data.isEmpty || joined.data.length < 10 then false
  else if 2 * asciiCount joined < joined.data.length then false
  else if distinctCellCount row < 4 then false
  else if 2 < companyCount row then false
  else true

/-- The cell-matching test of `find_header_row_and_map`:
`alias_clean == cell or alias_clean in cell or cell in alias_clean`. -/
def aliasMatch (al cell : String) : Bool :=
  al == cell || strIn al cell || strIn cell al

/-- Inner loop `for j, cell in enumerate(cleaned)`: index of the first
matching cell, starting the count at `j`. -/
def firstIdxFrom (al : String) : Nat → List String → Option Nat
  | _, [] => none
  | j, c :: cs => if aliasMatch al c then some j else firstIdxFrom al (j + 1) cs

def firstMatchCell (cleaned : List String) (al : String) : Option Nat :=
  firstIdxFrom al 0 cleaned

/-- Alias loop for one canonical field: first alias (in declared order)
whose first matching cell exists wins. -/
def resolveField (cleaned : List String) : List String → Option Nat
  | [] => none
  | a :: rest =>
    match firstMatchCell cleaned (clean_col a) with
    | some j => some j
    | none => resolveField cleaned rest

/-- `col_map` built for one candidate header row. -/
def buildColMap (cleaned : List String) : List (String × Nat) :=
  COLUMN_ALIASES.filterMap (fun ca =>
    (resolveField cleaned ca.2).map (fun j => (ca.1, j)))

def hasField (m : List (String × Nat)) (f : String) : Bool :=
  m.any (fun p => p.1 == f)

/-- The mapping-validity test of `find_header_row_and_map`. -/
def validMap (m : List (String × Nat)) : Bool :=
  hasField m "Style No" && hasField m "PO Nr" &&
  (hasField m "Quantity" || hasField m "Price" || hasField m "Total")

/-- One row qualifies as the header: passes the classifier and yields a
valid mapping. -/
def rowQualifies (row : List String) : Bool :=
  looks_like_header row && validMap (buildColMap (row.map clean_col))

/-- The scan loop of `find_header_row_and_map`, carrying the row index. -/
def findHeaderAux : Nat → List (List String) → Option (Nat × List (String × Nat))
  | _, [] => none
  | i, row :: rest =>
    if rowQualifies row then some (i, buildColMap (row.map clean_col))
    else findHeaderAux (i + 1) rest

/-- `find_header_row_and_map(df)`: scan only `df.head(40)`. -/
def find_header_row_and_map (df : List (List String)) :
    Option (Nat × List (String × Nat)) :=
  findHeaderAux 0 (df.take 40)

/-- A numeric data cell of the string-typed frame, as seen through
`is_numeric_or_empty` and the later `float` coercion: missing/NaN,
a parsable number (value as a rational), or non-numeric text. -/
inductive Cell
  | blank
  | num (q : ℚ)
  | text
  deriving DecidableEq

/-- `is_numeric_or_empty(val)`. -/
def is_numeric_or_empty : Cell → Bool
  | .blank => true
  | .num _ => true
  | .text => false

/-- A data row of the re-read frame `df2`, restricted to the five mapped
columns: key cells as read with `dtype=str` (`none` = NaN), numeric cells
as `Cell`. -/
structure RawRow where
  styleNo : Option String
  poNr : Option String
  qty : Cell
  price : Cell
  total : Cell
  deriving DecidableEq

/-- Which of the three numeric canonical fields survived the
re-resolution onto `df2`'s columns (`mapped_cols`). -/
structure ColMapped where
  hasQty : Bool
  hasPrice : Bool
  hasTotal : Bool
  deriving DecidableEq

/-- A canonical-table row: `Style No` / `PO Nr` as read, numeric fields
float-or-missing. -/
structure CanonRow where
  styleNo : Option String
  poNr : Option String
  quantity : Option ℚ
  price : Option ℚ
  total : Option ℚ
  deriving DecidableEq

/-- Numeric coercion of one retained cell (`'' -> NaN`, else `float`).
A `text` cell never reaches coercion in a mapped column (the mask drops
its row first). -/
def coerceCell : Cell → Option ℚ
  | .blank => none
  | .num q => some q
  | .text => none

/-- The boolean mask `df2[num_cols].applymap(is_numeric_or_empty).all(axis=1)`:
only columns that are actually mapped participate; with no mapped numeric
column the filter is skipped (mask constantly true). -/
def rowMask (m : ColMapped) (r : RawRow) : Bool :=
  (!m.hasQty || is_numeric_or_empty r.qty) &&
  (!m.hasPrice || is_numeric_or_empty r.price) &&
  (!m.hasTotal || is_numeric_or_empty r.total)

/-- Numeric conversion + projection onto the five canonical columns;
an unmapped numeric field becomes an all-NaN column. -/
def toCanon (m : ColMapped) (r : RawRow) : CanonRow :=
  ⟨r.styleNo, r.poNr,
   if m.hasQty then coerceCell r.qty else none,
   if m.hasPrice then coerceCell r.price else none,
   if m.hasTotal then coerceCell r.total else none⟩

/-- `not row["Style No"] or pd.isna(row["Style No"]) or ...`: the key is
bad when either key cell is NaN or the empty string. -/
def badKey (r : CanonRow) : Bool :=
  r.styleNo.getD "" == "" || r.poNr.getD "" == ""

/-- `truncate_table(df)`: rows carry their pandas index label;
`iterrows` yields labels, so `stop_idx` is the LABEL of the first
bad-key row (defaulting to the row count), while `df.iloc[:stop_idx]`
slices POSITIONALLY — exactly as in the source. -/
def truncate_table (rows : List (Nat × CanonRow)) : List (Nat × CanonRow) :=
  let stop :=
    match rows.find? (fun p => badKey p.2) with
    | some p => p.1
    | none => rows.length
  rows.take stop

/-- The data path of `read_and_standardize` after the header row has been
re-resolved on `df2`: label the rows 0.. (the fresh RangeIndex of the
re-read), filter by the numeric mask (labels survive, as in pandas),
coerce and project, then truncate. -/
def read_and_standardize_rows (m : ColMapped) (rows : List RawRow) :
    List (Nat × CanonRow) :=
  truncate_table
    (((rows.enum).filter (fun p => rowMask m p.2)).map
      (fun p => (p.1, toCanon m p.2)))

/-- A joined row of `merged`: input-side values, reference-side values
(`none` on an unmatched key). -/
structure MergedRow where
  styleNo : Option String
  poNr : Option String
  qIn : Option ℚ
  pIn : Option ℚ
  tIn : Option ℚ
  qC : Option ℚ
  pC : Option ℚ
  tC : Option ℚ
  deriving DecidableEq

/-- Float subtraction with NaN propagation, followed by the explicit
`loc`-masking that forces the diff to NaN where the consolidated value is
missing (already absorbed by the propagation). -/
def subOpt : Option ℚ → Option ℚ → Option ℚ
  | some a, some b => some (a - b)
  | _, _ => none

def qDiff (m : MergedRow) : Option ℚ := subOpt m.qIn m.qC

def pDiff (m : MergedRow) : Option ℚ := subOpt m.pIn m.pC

def tDiff (m : MergedRow) : Option ℚ := subOpt m.tIn m.tC

/-- `merged[col].abs() > 0.01` on one entry; a NaN comparison is false. -/
def absGtTol : Option ℚ → Bool
  | some x => decide (1 / 100 < |x|)
  | none => false

/-- The deviation mask of one joined row. -/
def deviationRow (m : MergedRow) : Bool :=
  m.qC.isNone || m.pC.isNone || m.tC.isNone ||
  absGtTol (qDiff m) || absGtTol (pDiff m) || absGtTol (tDiff m)

/-- Join-key equality (`on=["Style No", "PO Nr"]`). -/
def keyEq (r s : CanonRow) : Bool :=
  s.styleNo == r.styleNo && s.poNr == r.poNr

/-- The merged row for an input row with no reference match: reference
fields NaN. -/
def mkUnmatched (r : CanonRow) : MergedRow :=
  ⟨r.styleNo, r.poNr, r.quantity, r.price, r.total, none, none, none⟩

/-- The merged row for an input row matched to reference row `s`. -/
def mkMatched (r s : CanonRow) : MergedRow :=
  ⟨r.styleNo, r.poNr, r.quantity, r.price, r.total,
   s.quantity, s.price, s.total⟩

/-- `input_df.merge(consolidated_df, on=..., how="left", ...)`: left
order preserved, reference matches fan out in reference order, an
unmatched key produces one row with NaN reference fields. -/
def mergeTables (input ref : List CanonRow) : List MergedRow :=
  input.flatMap (fun r =>
    if (ref.filter (keyEq r)).isEmpty then [mkUnmatched r]
    else (ref.filter (keyEq r)).map (mkMatched r))

/-- `deviated_rows = merged[deviation_mask]`. -/
def deviated_rows (merged : List MergedRow) : List MergedRow :=
  merged.filter deviationRow

/-- `deviated_rows["Total_diff"].dropna().sum() if not deviated_rows.empty
else 0.0`. -/
def total_deviated (merged : List MergedRow) : ℚ :=
  let dev := deviated_rows merged
  if dev.isEmpty then 0 else ((dev.filterMap tDiff).sum)

/-! Concrete inputs used by the theorems below. -/

/-- The header row of the contentless-cell scenario: a punctuation-only
cell sits left of the genuine `Qty` column. -/
def exRowC9 : List String := ["Style No", "PO Nr", "###", "Qty", "Price"]

/-- Data row dropped by the non-numeric filter (textual quantity). -/
def bugRow0 : RawRow := ⟨some "A", some "P", Cell.text, Cell.num 1, Cell.num 1⟩

/-- Data row with a missing `Style No` key. -/
def bugRow1 : RawRow := ⟨none, some "P2", Cell.num 1, Cell.num 1, Cell.num 1⟩

/-- A well-formed data row sitting below the bad-key row. -/
def bugRow2 : RawRow := ⟨some "B", some "P3", Cell.num 2, Cell.num 2, Cell.num 2⟩

def allMapped : ColMapped := ⟨true, true, true⟩

/-- The canonical row that survives truncation in the failing run. -/
def bugOutRow : CanonRow := ⟨none, some "P2", some 1, some 1, some 1⟩

def scBinput : List CanonRow := [⟨some "A1", some "P1", some 10, some 2, some 20⟩]

def scBref : List CanonRow := [⟨some "A1", some "P1", some 9, some 2, some 18⟩]

def scBmerged : MergedRow :=
  ⟨some "A1", some "P1", some 10, some 2, some 20, some 9, some 2, some 18⟩

def rowA2 : CanonRow := ⟨some "A2", some "P2", some 1, some 2, some 2⟩

def refNoQty : CanonRow := ⟨some "A1", some "P1", none, some 2, some 20⟩

def inRow1 : CanonRow := ⟨some "A1", some "P1", some 10, some 2, some 20⟩

/-! Helper lemmas. -/

theorem isKept_toLower_eq {c : Char} (h : isKept c = true) :
    Char.toLower c = c := by
  simp only [isKept, Bool.or_eq_true, Bool.and_eq_true, decide_eq_true_eq] at h
  simp only [Char.toLower]
  split
  next h2 => exfalso; omega
  next => rfl

theorem map_toLower_of_kept :
    ∀ l : List Char, (∀ c ∈ l, isKept c = true) → l.map Char.toLower = l := by
  intro l h
  induction l with
  | nil => rfl
  | cons c cs ih =>
    simp only [List.map_cons]
    rw [isKept_toLower_eq (h c (by simp)),
      ih (fun x hx => h x (List.mem_cons_of_mem _ hx))]

theorem clean_col_idem (s : String) : clean_col (clean_col s) = clean_col s := by
  unfold clean_col
  congr 1
  have hk : ∀ c ∈ (s.data.map Char.toLower).filter isKept, isKept c = true :=
    fun c hc => (List.mem_filter.mp hc).2
  rw [map_toLower_of_kept _ hk, List.filter_eq_self.mpr hk]

theorem absGtTol_iff (d : Option ℚ) :
    absGtTol d = true ↔ ∃ x, d = some x ∧ 1 / 100 < |x| := by
  cases d <;> simp [absGtTol]

theorem isSubstr_nil_left : ∀ l : List Char, isSubstr [] l = true := by
  intro l
  cases l <;> simp [isSubstr, List.isPrefixOf]

theorem firstIdxFrom_some_spec (al : String) :
    ∀ (l : List String) (k j : Nat), firstIdxFrom al k l = some j →
      k ≤ j ∧ ∃ c, l[j - k]? = some c ∧ aliasMatch al c = true ∧
        ∀ i c', i < j - k → l[i]? = some c' → aliasMatch al c' = false := by
  intro l
  induction l with
  | nil => intro k j h; simp [firstIdxFrom] at h
  | cons c cs ih =>
    intro k j h
    simp only [firstIdxFrom] at h
    by_cases hm : aliasMatch al c = true
    · rw [if_pos hm] at h
      obtain rfl : k = j := by injection h
      refine ⟨Nat.le_refl _, c, by simp, hm, ?_⟩
      intro i c' hi _
      omega
    · rw [if_neg hm] at h
      obtain ⟨hk, c0, hget, hmatch, hbefore⟩ := ih (k + 1) j h
      refine ⟨by omega, c0, ?_, hmatch, ?_⟩
      · have hjk : j - k = (j - (k + 1)) + 1 := by omega
        rw [hjk]
        simpa using hget
      · intro i c' hi hgi
        cases i with
        | zero =>
          simp only [List.getElem?_cons_zero, Option.some_inj] at hgi
          rw [hgi] at hm
          simpa using hm
        | succ i' =>
          simp only [List.getElem?_cons_succ] at hgi
          exact hbefore i' c' (by omega) hgi

theorem findHeaderAux_none_iff :
    ∀ (l : List (List String)) (k : Nat),
      findHeaderAux k l = none ↔ ∀ row ∈ l, rowQualifies row = false := by
  intro l
  induction l with
  | nil => intro k; simp [findHeaderAux]
  | cons row rest ih =>
    intro k
    simp only [findHeaderAux]
    by_cases h : rowQualifies row = true
    · rw [if_pos h]
      simp [List.forall_mem_cons, h]
    · rw [if_neg h]
      simp only [Bool.not_eq_true] at h
      simp [List.forall_mem_cons, ih, h]

theorem findHeaderAux_some_spec :
    ∀ (l : List (List String)) (k i : Nat) (m : List (String × Nat)),
      findHeaderAux k l = some (i, m) →
      k ≤ i ∧ ∃ row, l[i - k]? = some row ∧ rowQualifies row = true ∧
        m = buildColMap (row.map clean_col) ∧
        ∀ j r', j < i - k → l[j]? = some r' → rowQualifies r' = false := by
  intro l
  induction l with
  | nil => intro k i m h; simp [findHeaderAux] at h
  | cons row rest ih =>
    intro k i m h
    simp only [findHeaderAux] at h
    by_cases hq : rowQualifies row = true
    · rw [if_pos hq] at h
      obtain ⟨rfl, rfl⟩ : k = i ∧ buildColMap (row.map clean_col) = m := by
        injection h with h'
        exact ⟨congrArg Prod.fst h', congrArg Prod.snd h'⟩
      refine ⟨Nat.le_refl _, row, by simp, hq, rfl, ?_⟩
      intro j r' hj _
      omega
    · rw [if_neg hq] at h
      obtain ⟨hk, r0, hget, hqual, hmap, hbefore⟩ := ih (k + 1) i m h
      refine ⟨by omega, r0, ?_, hqual, hmap, ?_⟩
      · have hik : i - k = (i - (k + 1)) + 1 := by omega
        rw [hik]
        simpa using hget
      · intro j r' hj hgj
        cases j with
        | zero =>
          simp only [List.getElem?_cons_zero, Option.some_inj] at hgj
          rw [hgj] at hq
          simpa using hq
        | succ j' =>
          simp only [List.getElem?_cons_succ] at hgj
          exact hbefore j' r' (by omega) hgj

theorem truncate_table_subset (l : List (Nat × CanonRow)) :
    ∀ p ∈ truncate_table l, p ∈ l := by
  intro p hp
  simp only [truncate_table] at hp
  exact List.take_subset _ _ hp

theorem total_deviated_eq_sum (merged : List MergedRow) :
    total_deviated merged = ((deviated_rows merged).filterMap tDiff).sum := by
  simp only [total_deviated]
  split
  next h => rw [List.isEmpty_iff.mp h]; rfl
  next => rfl

/-! Claim theorems. -/

/-- C8: `clean_col` is a total, deterministic label normalizer; it is
idempotent, its output is an order-preserving subsequence of the
lower-cased input, and every retained character lies in `[a-z0-9]`. -/
theorem clean_col_spec :
    (∀ s : String, clean_col (clean_col s) = clean_col s) ∧
    (∀ s : String, (clean_col s).data.Sublist (s.data.map Char.toLower)) ∧
    (∀ s : String, ∀ c ∈ (clean_col s).data, isKept c = true) := by
  refine ⟨clean_col_idem, fun s => ?_, fun s c hc => ?_⟩
  · exact List.filter_sublist _
  · exact (List.mem_filter.mp hc).2

/-- C2: the deviation flag of a joined row is set exactly when a
reference-side `Quantity`, `Price` or `Total` is missing, or one of the
three diffs strictly exceeds `0.01` in absolute value; a diff of exactly
`0.01` is not a deviation, while `0.0100001` is. -/
theorem deviation_predicate_spec :
    (∀ m : MergedRow, deviationRow m = true ↔
      (m.qC = none ∨ m.pC = none ∨ m.tC = none ∨
       (∃ x, qDiff m = some x ∧ 1 / 100 < |x|) ∨
       (∃ x, pDiff m = some x ∧ 1 / 100 < |x|) ∨
       (∃ x, tDiff m = some x ∧ 1 / 100 < |x|))) ∧
    deviationRow ⟨some "S", some "P", some (101 / 100), some 1, some 1,
      some 1, some 1, some 1⟩ = false ∧
    deviationRow ⟨some "S", some "P", some (1 + 100001 / 10000000), some 1,
      some 1, some 1, some 1, some 1⟩ = true := by
  refine ⟨fun m => ?_, ?_, ?_⟩
  · simp only [deviationRow, absGtTol_iff, Option.isNone_iff_eq_none,
      Bool.or_eq_true, or_assoc]
  · norm_num [deviationRow, qDiff, pDiff, tDiff, subOpt, absGtTol]
    rw [abs_of_nonneg (by norm_num : (0 : ℚ) ≤ 1 / 100)]
  · norm_num [deviationRow, qDiff, pDiff, tDiff, subOpt, absGtTol]
    rw [abs_of_nonneg (by norm_num : (0 : ℚ) ≤ 100001 / 10000000)]
    norm_num

/-- C3: an input row whose `(Style No, PO Nr)` key has no reference match
always appears in `merged`, is always classified as deviating, has all
three diffs missing (never computed as input minus zero), and appears in
the deviation report. -/
theorem unmatched_key_spec :
    ∀ (input ref : List CanonRow) (r : CanonRow),
      r ∈ input → ref.filter (keyEq r) = [] →
      mkUnmatched r ∈ mergeTables input ref ∧
      deviationRow (mkUnmatched r) = true ∧
      qDiff (mkUnmatched r) = none ∧ pDiff (mkUnmatched r) = none ∧
      tDiff (mkUnmatched r) = none ∧
      mkUnmatched r ∈ deviated_rows (mergeTables input ref) := by
  intro input ref r hr hf
  have hmem : mkUnmatched r ∈ mergeTables input ref := by
    unfold mergeTables
    refine List.mem_flatMap.mpr ⟨r, hr, ?_⟩
    rw [hf]
    simp
  have hdev : deviationRow (mkUnmatched r) = true := by
    simp [deviationRow, mkUnmatched]
  have hq : qDiff (mkUnmatched r) = none := by
    simp only [qDiff, mkUnmatched]
    cases r.quantity <;> rfl
  have hp : pDiff (mkUnmatched r) = none := by
    simp only [pDiff, mkUnmatched]
    cases r.price <;> rfl
  have ht : tDiff (mkUnmatched r) = none := by
    simp only [tDiff, mkUnmatched]
    cases r.total <;> rfl
  exact ⟨hmem, hdev, hq, hp, ht, List.mem_filter.mpr ⟨hmem, hdev⟩⟩

/-- Witness for C3 at a concrete unmatched input row (Scenario C). -/
theorem unmatched_key_witness :
    mkUnmatched rowA2 ∈ mergeTables [rowA2] [] ∧
    deviationRow (mkUnmatched rowA2) = true ∧
    qDiff (mkUnmatched rowA2) = none ∧ pDiff (mkUnmatched rowA2) = none ∧
    tDiff (mkUnmatched rowA2) = none ∧
    mkUnmatched rowA2 ∈ deviated_rows (mergeTables [rowA2] []) :=
  unmatched_key_spec [rowA2] [] rowA2 (List.mem_singleton.mpr rfl) rfl

/-- C4: alias resolution is first-alias-first-cell: an earlier alias with
any matching cell preempts later aliases, a failing alias passes control
to the rest of the list, within one alias the leftmost matching cell
wins, and on a row holding both a "quantity" and a "qty" column the field
resolves via the alias `qty` (declared first) to the "qty" column. -/
theorem alias_resolution_spec :
    (∀ (cleaned : List String) (a : String) (rest : List String) (j : Nat),
        firstMatchCell cleaned (clean_col a) = some j →
        resolveField cleaned (a :: rest) = some j) ∧
    (∀ (cleaned : List String) (a : String) (rest : List String),
        firstMatchCell cleaned (clean_col a) = none →
        resolveField cleaned (a :: rest) = resolveField cleaned rest) ∧
    (∀ (cleaned : List String) (al : String) (j : Nat),
        firstMatchCell cleaned al = some j →
        ∃ c, cleaned[j]? = some c ∧ aliasMatch al c = true ∧
          ∀ i c', i < j → cleaned[i]? = some c' → aliasMatch al c' = false) ∧
    resolveField ["quantity", "qty"] quantityAliases = some 1 := by
  refine ⟨?_, ?_, ?_, by decide⟩
  · intro cleaned a rest j h
    simp [resolveField, h]
  · intro cleaned a rest h
    simp [resolveField, h]
  · intro cleaned al j h
    obtain ⟨_, c, hget, hm, hb⟩ := firstIdxFrom_some_spec al cleaned 0 j h
    rw [Nat.sub_zero] at hget hb
    exact ⟨c, hget, hm, fun i c' hi hgi => hb i c' hi hgi⟩

/-- Witness for C4: the first alias's first matching cell decides the
field at a concrete row. -/
theorem alias_resolution_witness :
    resolveField ["qty"] ["qty"] = some 0 :=
  alias_resolution_spec.1 ["qty"] "qty" [] 0 (by decide)

/-- C5: `looks_like_header` accepts a row exactly when the joined
lower-cased text is at least 10 characters, at least half its characters
are ASCII, there are at least 4 distinct non-empty cell texts, and at
most 2 cells mention "company"/"ltd"/"inc"; a row with only 3 distinct
non-empty cells is always rejected. -/
theorem looks_like_header_spec :
    (∀ row : List String, looks_like_header row = true ↔
      (10 ≤ (joinedText row).data.length ∧
       (joinedText row).data.length ≤ 2 * asciiCount (joinedText row) ∧
       4 ≤ distinctCellCount row ∧
       companyCount row ≤ 2)) ∧
    (∀ row : List String, distinctCellCount row = 3 →
       looks_like_header row = false) := by
  have main : ∀ row : List String, looks_like_header row = true ↔
      (10 ≤ (joinedText row).data.length ∧
       (joinedText row).data.length ≤ 2 * asciiCount (joinedText row) ∧
       4 ≤ distinctCellCount row ∧
       companyCount row ≤ 2) := by
    intro row
    simp only [looks_like_header]
    split_ifs with h1 h2 h3 h4
    · simp only [Bool.or_eq_true, List.isEmpty_iff, decide_eq_true_eq] at h1
      have hlen : (joinedText row).data.length < 10 := by
        rcases h1 with h | h
        · rw [h]; simp
        · exact h
      simp only [Bool.false_eq_true, false_iff]
      omega
    · simp only [Bool.false_eq_true, false_iff]
      omega
    · simp only [Bool.false_eq_true, false_iff]
      omega
    · simp only [Bool.false_eq_true, false_iff]
      omega
    · simp only [Bool.or_eq_true, List.isEmpty_iff, decide_eq_true_eq,
        not_or, not_lt] at h1
      rw [not_lt] at h2 h3
      rw [not_lt] at h4
      exact iff_of_true rfl ⟨h1.2, h2, h3, h4⟩
  refine ⟨main, fun row h3 => ?_⟩
  rw [← Bool.not_eq_true]
  intro hc
  have := (main row).mp hc
  omega

/-- Witness for C5 at a row with exactly 3 distinct non-empty cells. -/
theorem looks_like_header_witness :
    looks_like_header ["aaaa", "bbbb", "cccc", "aaaa"] = false :=
  looks_like_header_spec.2 ["aaaa", "bbbb", "cccc", "aaaa"] (by decide)

/-- C6: header resolution scans only the first `min(40, rowCount)` rows,
in order; two sheets agreeing on their first 40 rows resolve alike; it
fails (returns nothing) exactly when no row in the window qualifies; and
a successful result is the first qualifying row of the window, with its
column map. -/
theorem header_scan_window_spec :
    (∀ df df' : List (List String), df.take 40 = df'.take 40 →
        find_header_row_and_map df = find_header_row_and_map df') ∧
    (∀ df : List (List String),
        find_header_row_and_map df = none ↔
          ∀ row ∈ df.take 40, rowQualifies row = false) ∧
    (∀ (df : List (List String)) (i : Nat) (m : List (String × Nat)),
        find_header_row_and_map df = some (i, m) →
        i < 40 ∧ ∃ row, df[i]? = some row ∧ rowQualifies row = true ∧
          m = buildColMap (row.map clean_col) ∧
          ∀ j r', j < i → df[j]? = some r' → rowQualifies r' = false) := by
  refine ⟨?_, ?_, ?_⟩
  · intro df df' h
    unfold find_header_row_and_map
    rw [h]
  · intro df
    exact findHeaderAux_none_iff (df.take 40) 0
  · intro df i m h
    obtain ⟨_, row, hget, hq, hm, hb⟩ :=
      findHeaderAux_some_spec (df.take 40) 0 i m h
    rw [Nat.sub_zero] at hget hb
    have hi : i < (df.take 40).length := by
      rcases List.getElem?_eq_some.mp hget with ⟨hlt, _⟩
      exact hlt
    have hi40 : i < 40 := by
      rw [List.length_take] at hi
      omega
    refine ⟨hi40, row, ?_, hq, hm, ?_⟩
    · rw [List.getElem?_take, if_pos hi40] at hget
      exact hget
    · intro j r' hj hgj
      refine hb j r' hj ?_
      rw [List.getElem?_take, if_pos (show j < 40 by omega)]
      exact hgj

/-- Witness for C6: a sheet with no qualifying row resolves to nothing. -/
theorem header_scan_window_witness :
    find_header_row_and_map [["x"]] = none :=
  (header_scan_window_spec.2.1 [["x"]]).mpr (by decide)

/-- C1 (refuted by the code): on a sheet whose first data row is dropped
by the non-numeric filter and whose next row lacks a `Style No`, the
pandas label/position mix-up in `truncate_table` keeps the bad-key row:
the returned canonical table contains a row with a missing `Style No`,
even though it is the first bad-key row of the pre-truncation data. -/
theorem truncation_invariant_fails :
    read_and_standardize_rows allMapped [bugRow0, bugRow1, bugRow2] =
      [(1, bugOutRow)] ∧
    badKey bugOutRow = true ∧
    bugOutRow.styleNo = none := by
  exact ⟨by decide, by decide, rfl⟩

/-- C7: the aggregate equals the sum of the non-missing `Total` diffs
over deviating rows only, is `0` when no row deviates, and on Scenario B
yields one deviating row with `Quantity_diff = 1`, `Total_diff = 2`,
aggregate `2`. -/
theorem total_deviated_spec :
    (∀ merged : List MergedRow,
        total_deviated merged = ((deviated_rows merged).filterMap tDiff).sum) ∧
    (∀ merged : List MergedRow, deviated_rows merged = [] →
        total_deviated merged = 0) ∧
    (deviated_rows (mergeTables scBinput scBref) = [scBmerged] ∧
     qDiff scBmerged = some 1 ∧ tDiff scBmerged = some 2 ∧
     total_deviated (mergeTables scBinput scBref) = 2) := by
  have hmerge : mergeTables scBinput scBref = [scBmerged] := rfl
  have hdev : deviationRow scBmerged = true := by
    norm_num [deviationRow, qDiff, pDiff, tDiff, subOpt, absGtTol, scBmerged]
  have hq : qDiff scBmerged = some 1 := by
    norm_num [qDiff, subOpt, scBmerged]
  have ht : tDiff scBmerged = some 2 := by
    norm_num [tDiff, subOpt, scBmerged]
  have hrows : deviated_rows (mergeTables scBinput scBref) = [scBmerged] := by
    rw [hmerge]
    simp [deviated_rows, hdev]
  refine ⟨total_deviated_eq_sum, fun merged h => ?_,
    hrows, hq, ht, ?_⟩
  · rw [total_deviated_eq_sum, h]
    rfl
  · rw [total_deviated_eq_sum, hrows]
    simp [ht]

/-- Witness for C7: the aggregate of an empty reconciliation is `0`. -/
theorem total_deviated_witness : total_deviated [] = 0 :=
  total_deviated_spec.2.1 [] rfl

/-- C9: a cell whose normalized token is empty matches every alias (the
empty token is a substring of any alias token); concretely, on a row that
passes the header classifier, `Quantity` resolves to the punctuation-only
cell at index 2 rather than the genuine "Qty" column at index 3. -/
theorem empty_token_matches_spec :
    (∀ al : String, aliasMatch al "" = true) ∧
    clean_col "###" = "" ∧
    looks_like_header exRowC9 = true ∧
    resolveField (exRowC9.map clean_col) quantityAliases = some 2 := by
  refine ⟨fun al => ?_, by decide, by decide, by decide⟩
  simp [aliasMatch, strIn, isSubstr_nil_left]

/-- C10: a numeric canonical field left unmapped during extraction is
missing in every row of the resulting table, and when every reference row
misses one of `Quantity`/`Price`/`Total`, every joined row is classified
as deviating — including rows whose present values agree on both sides. -/
theorem unmapped_numeric_column_spec :
    (∀ (m : ColMapped) (rows : List RawRow), m.hasQty = false →
        ∀ p ∈ read_and_standardize_rows m rows, p.2.quantity = none) ∧
    (∀ (m : ColMapped) (rows : List RawRow), m.hasPrice = false →
        ∀ p ∈ read_and_standardize_rows m rows, p.2.price = none) ∧
    (∀ (m : ColMapped) (rows : List RawRow), m.hasTotal = false →
        ∀ p ∈ read_and_standardize_rows m rows, p.2.total = none) ∧
    (∀ (input ref : List CanonRow),
        ((∀ s ∈ ref, s.quantity = none) ∨ (∀ s ∈ ref, s.price = none) ∨
         (∀ s ∈ ref, s.total = none)) →
        ∀ x ∈ mergeTables input ref, deviationRow x = true) := by
  have hext : ∀ (m : ColMapped) (rows : List RawRow),
      ∀ p ∈ read_and_standardize_rows m rows,
        ∃ r : RawRow, p.2 = toCanon m r := by
    intro m rows p hp
    simp only [read_and_standardize_rows] at hp
    have hp' := truncate_table_subset _ p hp
    obtain ⟨q, _, hq⟩ := List.mem_map.mp hp'
    exact ⟨q.2, by rw [← hq]⟩
  refine ⟨?_, ?_, ?_, ?_⟩
  · intro m rows hm p hp
    obtain ⟨r, hr⟩ := hext m rows p hp
    rw [hr]
    simp [toCanon, hm]
  · intro m rows hm p hp
    obtain ⟨r, hr⟩ := hext m rows p hp
    rw [hr]
    simp [toCanon, hm]
  · intro m rows hm p hp
    obtain ⟨r, hr⟩ := hext m rows p hp
    rw [hr]
    simp [toCanon, hm]
  · intro input ref hcase x hx
    simp only [mergeTables] at hx
    obtain ⟨r, _, hx⟩ := List.mem_flatMap.mp hx
    by_cases hempty : (ref.filter (keyEq r)).isEmpty = true
    · rw [if_pos hempty] at hx
      obtain rfl := List.mem_singleton.mp hx
      simp [deviationRow, mkUnmatched]
    · rw [if_neg hempty] at hx
      obtain ⟨s, hs, rfl⟩ := List.mem_map.mp hx
      have hsref : s ∈ ref := (List.mem_filter.mp hs).1
      rcases hcase with hq | hp | ht
      · simp [deviationRow, mkMatched, hq s hsref]
      · simp [deviationRow, mkMatched, hp s hsref]
      · simp [deviationRow, mkMatched, ht s hsref]

/-- Witness for C10: an input row agreeing with its reference match on
every present value still deviates when the reference `Quantity` column
is entirely missing. -/
theorem unmapped_numeric_column_witness :
    deviationRow (mkMatched inRow1 refNoQty) = true :=
  unmapped_numeric_column_spec.2.2.2 [inRow1] [refNoQty]
    (Or.inl (by decide)) (mkMatched inRow1 refNoQty) (by decide)

end InvoiceCheck
